import Mathlib

/-!
Verification of the request-audit pipeline of the web-clean repository.

The embedding models, from the Go source:
  - the JSON value shapes and the encoding/json string encoder used by the
    request log collector and the error persister fallback,
  - the request log collector (infra/web/log_persist.go), including the
    fate of the write each method first forwards to the wired base logger
    (log.Zap, zap development config): DEBUG, INFO, WARN and ERROR writes
    return, DPANIC and PANIC writes panic before the append line runs, and
    FATAL writes exit the process,
  - the middleware chain (infra/web/id.go, error_persist.go, recover.go and
    the context middleware), and
  - the two persisters (repository/errors.go).
Go panics are modelled as an explicit Outcome; deferred functions are
compiled into the explicit control flow of each middleware, in LIFO order.
-/

namespace WebClean

/-! ### JSON values and the encoding/json encoder

Models the subset of Go dynamic values that flow into json.Marshal in this
repository: nil, booleans, integers, strings and slices. -/

inductive JVal where
  | jnull : JVal
  | jbool : Bool → JVal
  | jint : Int → JVal
  | jstr : String → JVal
  | jarr : List JVal → JVal

/-- Hex digit characters as produced by the Go JSON encoder (lowercase). -/
def hexDigit (n : Nat) : Char :=
  if n < 10 then Char.ofNat (48 + n) else Char.ofNat (87 + n)

/-- String escaping of one character, as done by encoding/json with its
default HTML escaping (quotes, backslash, control characters, and the
HTML-relevant characters). -/
def escChar (c : Char) : String :=
  if c = '"' then "\\\""
  else if c = '\\' then "\\\\"
  else if c = '\n' then "\\n"
  else if c = '\r' then "\\r"
  else if c = '\t' then "\\t"
  else if c.toNat < 32 then
    "\\u00" ++ String.mk [hexDigit (c.toNat / 16), hexDigit (c.toNat % 16)]
  else if c = '<' then "\\u003c"
  else if c = '>' then "\\u003e"
  else if c = '&' then "\\u0026"
  else String.mk [c]

/-- JSON encoding of a string, per encoding/json. -/
def jencStr (s : String) : String :=
  "\"" ++ String.join (s.toList.map escChar) ++ "\""

mutual

/-- Compact JSON encoding of a value, per json.Marshal. -/
def jenc : JVal → String
  | JVal.jnull => "null"
  | JVal.jbool true => "true"
  | JVal.jbool false => "false"
  | JVal.jint n => toString n
  | JVal.jstr s => jencStr s
  | JVal.jarr xs => "[" ++ jencArr xs ++ "]"

/-- Comma-separated encoding of the elements of a JSON array. -/
def jencArr : List JVal → String
  | [] => ""
  | [x] => jenc x
  | x :: y :: rest => jenc x ++ "," ++ jencArr (y :: rest)

end

/-! ### The request log collector (infra/web/log_persist.go) -/

/-- web.Log: one captured log record. -/
structure Log where
  Level : String
  Msg : String
deriving Repr, DecidableEq

/-- webLog.appendToLogs: serializes the argument slice to JSON and appends a
record tagged with the level. In the Go source a json.Marshal failure falls
back to an inline textual representation; in this value model the encoder is
total, so that branch is unreachable. -/
def appendToLogs (logs : List Log) (level : String) (args : List JVal) : List Log :=
  logs ++ [{ Level := level, Msg := jenc (JVal.jarr args) }]

/-- The seven levels of the collector methods, exactly the level tags the
source hardcodes in log_persist.go. -/
inductive LogLevel where
  | debug : LogLevel
  | info : LogLevel
  | warn : LogLevel
  | error : LogLevel
  | dpanic : LogLevel
  | panicLvl : LogLevel
  | fatal : LogLevel
deriving Repr, DecidableEq

/-- The level tag string each collector method passes to appendToLogs. -/
def levelName : LogLevel → String
  | LogLevel.debug => "DEBUG"
  | LogLevel.info => "INFO"
  | LogLevel.warn => "WARN"
  | LogLevel.error => "ERROR"
  | LogLevel.dpanic => "DPANIC"
  | LogLevel.panicLvl => "PANIC"
  | LogLevel.fatal => "FATAL"

/-- What the wired base logger does with one forwarded write: return to the
caller, write and then panic, or write and then terminate the process. -/
inductive ForwardFate where
  | returns : ForwardFate
  | panics : ForwardFate
  | exits : ForwardFate
deriving Repr, DecidableEq

/-- The fate of a forwarded write per level, modelled from the zap library
as wired in log.Zap (zap.NewDevelopmentConfig, so development mode): the
DEBUG, INFO, WARN and ERROR writes return; PANIC writes then panics, and so
does DPANIC in development mode; FATAL writes then calls os.Exit, which
terminates the process before any deferred function runs. -/
def levelFate : LogLevel → ForwardFate
  | LogLevel.debug => ForwardFate.returns
  | LogLevel.info => ForwardFate.returns
  | LogLevel.warn => ForwardFate.returns
  | LogLevel.error => ForwardFate.returns
  | LogLevel.dpanic => ForwardFate.panics
  | LogLevel.panicLvl => ForwardFate.panics
  | LogLevel.fatal => ForwardFate.exits

/-- One call on the request log collector: the plain-args variant
(Debug, Info, ...), the format-string variant (Debugf, Infof, ...) and the
keyed-pairs variant (Debugw, Infow, ...), each at one of the seven levels. -/
inductive LogCall where
  | plain : LogLevel → List JVal → LogCall
  | fvariant : LogLevel → String → List JVal → LogCall
  | wvariant : LogLevel → String → List JVal → LogCall

/-- The level of a collector call. -/
def callLevel : LogCall → LogLevel
  | LogCall.plain lvl _ => lvl
  | LogCall.fvariant lvl _ _ => lvl
  | LogCall.wvariant lvl _ _ => lvl

/-- The appendToLogs line of one collector method, with exactly the
arguments that method passes: the plain variants pass their argument slice,
the f-variants the pair (template, args) and the w-variants the pair
(msg, keysAndValues). Each method runs this line only after the forwarded
write to the base logger has returned; the full call semantics, forward
included, is logCallStep. -/
def logCallAppend (logs : List Log) : LogCall → List Log
  | LogCall.plain lvl args => appendToLogs logs (levelName lvl) args
  | LogCall.fvariant lvl template args =>
      appendToLogs logs (levelName lvl) [JVal.jstr template, JVal.jarr args]
  | LogCall.wvariant lvl msg kvs =>
      appendToLogs logs (levelName lvl) [JVal.jstr msg, JVal.jarr kvs]

/-- The single record the appendToLogs line of one collector call buffers
when that line is reached, which happens exactly when the forwarded write
returns. -/
def callRecord : LogCall → Log
  | LogCall.plain lvl args =>
      { Level := levelName lvl, Msg := jenc (JVal.jarr args) }
  | LogCall.fvariant lvl template args =>
      { Level := levelName lvl,
        Msg := jenc (JVal.jarr [JVal.jstr template, JVal.jarr args]) }
  | LogCall.wvariant lvl msg kvs =>
      { Level := levelName lvl,
        Msg := jenc (JVal.jarr [JVal.jstr msg, JVal.jarr kvs]) }

/-- One full collector call against the request buffer: the method first
forwards the write to the base logger; only when that write returns does
the appendToLogs line run and buffer exactly one record. A panicking or
exiting write (DPANIC, PANIC, FATAL under the wired development zap logger)
leaves the buffer untouched, because the method never reaches its append. -/
def logCallStep (logs : List Log) (c : LogCall) : List Log × ForwardFate :=
  if levelFate (callLevel c) = ForwardFate.returns then
    (logCallAppend logs c, ForwardFate.returns)
  else (logs, levelFate (callLevel c))

/-- webLog.Infof restricted to its buffer effect (log_persist.go lines
84-87); the INFO-level forward returns, so the append line always runs. -/
def webLogInfof (logs : List Log) (template : String) (args : List JVal) : List Log :=
  appendToLogs logs "INFO" [JVal.jstr template, JVal.jarr args]

/-- webLog.Infow restricted to its buffer effect (log_persist.go lines
119-122); the INFO-level forward returns, so the append line always runs. -/
def webLogInfow (logs : List Log) (msg : String) (kvs : List JVal) : List Log :=
  appendToLogs logs "INFO" [JVal.jstr msg, JVal.jarr kvs]

lemma logCallAppend_eq (logs : List Log) (c : LogCall) :
    logCallAppend logs c = logs ++ [callRecord c] := by
  cases c <;> rfl

lemma callRecord_level (c : LogCall) :
    (callRecord c).Level = levelName (callLevel c) := by
  cases c <;> rfl

lemma levelFate_forces_fatal (l : LogLevel)
    (h1 : ¬levelFate l = ForwardFate.returns)
    (h2 : ¬levelFate l = ForwardFate.panics) : l = LogLevel.fatal := by
  cases l <;> simp_all [levelFate]

lemma returns_ne_fatal (l : LogLevel)
    (h : levelFate l = ForwardFate.returns) : l ≠ LogLevel.fatal := by
  cases l <;> simp_all [levelFate]

lemma panics_ne_fatal (l : LogLevel)
    (h : levelFate l = ForwardFate.panics) : l ≠ LogLevel.fatal := by
  cases l <;> simp_all [levelFate]

/-! ### The gin request state and the middleware chain

The request-scoped key/value store of gin (context.Set / context.Get) is
modelled as an association list over the three key constants the source
uses: the literal header name "X-Request-ID", idKey = "__idKey__" (id.go)
and webContextKey = "__webCtxKey__" (the context middleware). The three
string constants are pairwise distinct, so an inductive key type is a
faithful model of them. -/

inductive GinKey where
  | xRequestID : GinKey
  | idKey : GinKey
  | webContextKey : GinKey
deriving Repr, DecidableEq

/-- A dynamic value stored in the request-scoped store: the Go nil interface,
a string, the *web.Context pointer built by the context middleware (its
Database and Log payload is irrelevant to every lookup in the source and is
elided), or a value of any other dynamic type. -/
inductive KVal where
  | vnil : KVal
  | vstr : String → KVal
  | vctx : KVal
  | vother : KVal
deriving Repr, DecidableEq

/-- The request-scoped store; context.Set prepends, context.Get takes the
most recent binding. -/
abbrev KV := List (GinKey × KVal)

/-- context.Set. -/
def kvSet (kv : KV) (k : GinKey) (v : KVal) : KV := (k, v) :: kv

/-- context.Get: the most recent binding of the key, none when absent. -/
def kvGet : KV → GinKey → Option KVal
  | [], _ => none
  | (k1, v) :: rest, k => if k1 = k then some v else kvGet rest k

/-- web.Errors (error_persist.go): the captured failure context of one
request. The Stack field is declared as an empty interface in Go but always
holds the string produced by context.Errors.String, so it is a String here. -/
structure ErrRec where
  Stack : String
  Method : String
  URL : String
  Path : String
  IP : String
  RequestID : String
deriving Repr, DecidableEq

/-- The observable per-request state threaded through the middleware chain.
header, method, url, path and ip are the read-only properties of the inbound
request; kv is the request-scoped store; errors is context.Errors (as
messages); logs is the buffer of the request log collector; auditCalls and
errorCalls record each invocation of the audit persister and of the error
persister; errLogs records the error-level messages emitted by the guards;
resp records response bodies written; observed records the request IDs the
business handler read through RequestIdGetter. -/
structure GinSt where
  header : String
  method : String
  url : String
  path : String
  ip : String
  kv : KV
  errors : List String
  logs : List Log
  auditCalls : List (List Log)
  errorCalls : List ErrRec
  errLogs : List String
  resp : List String
  observed : List String
deriving Repr, DecidableEq

/-- The outcome of running a handler chain segment: a normal return or a
propagating Go panic carrying a value. -/
inductive Outcome where
  | normal : Outcome
  | panicked : String → Outcome
deriving Repr, DecidableEq

/-- RequestIDMiddleware (id.go lines 9-19): reuse a non-empty inbound
X-Request-ID header verbatim, otherwise generate a fresh token and also
store it under the header name; in both cases store it under idKey. The
generator is a parameter, wired to uuid.NewString in main. -/
def requestIDMiddleware (idGen : String) (next : GinSt → GinSt × Outcome)
    (st : GinSt) : GinSt × Outcome :=
  let requestID := if st.header = "" then idGen else st.header
  let st1 := if st.header = "" then
      { st with kv := kvSet st.kv GinKey.xRequestID (KVal.vstr requestID) }
    else st
  next { st1 with kv := kvSet st1.kv GinKey.idKey (KVal.vstr requestID) }

/-- RequestIdGetter (id.go lines 21-27): an absent key returns the empty
string; a present non-string value makes the unchecked type assertion
panic, modelled as none. -/
def requestIdGetter (kv : KV) : Option String :=
  match kvGet kv GinKey.idKey with
  | none => some ""
  | some (KVal.vstr s) => some s
  | some _ => none

/-- The per-entry rendering of the gin errorMsgs.String loop, modelled from
the gin library (an external collaborator): each recorded error is printed
as Error #NN: message, with the two-digit index, one per line. -/
def ginErrorsStringAux (i : Nat) : List String → String
  | [] => ""
  | e :: rest =>
      "Error #" ++ (if i < 10 then "0" ++ toString i else toString i) ++ ": "
        ++ e ++ "\n" ++ ginErrorsStringAux (i + 1) rest

/-- context.Errors.String, modelled from the gin library. -/
def ginErrorsString (errors : List String) : String :=
  ginErrorsStringAux 1 errors

/-- ErrorPersisterMiddleware (error_persist.go lines 24-65): captures
method, full URL, path, client IP and request ID at stage entry, runs the
rest of the chain, and on normal return persists one report when at least
one error was recorded. The deferred recover guard catches any panic that
reaches the stage, from the inner chain or from the persist call itself, and
only logs it; the stage then returns normally. A persister is a parameter,
allowed to panic. -/
def errorPersisterMiddleware (persist : ErrRec → GinSt → GinSt × Outcome)
    (next : GinSt → GinSt × Outcome) (st : GinSt) : GinSt × Outcome :=
  match requestIdGetter st.kv with
  | none => (st, Outcome.panicked "interface conversion")
  | some requestID =>
    match next st with
    | (st1, Outcome.panicked _) =>
        ({ st1 with errLogs := st1.errLogs ++ ["ErrorPersister 抛出错误"] },
          Outcome.normal)
    | (st1, Outcome.normal) =>
        if st1.errors = [] then (st1, Outcome.normal)
        else
          match persist { Stack := ginErrorsString st1.errors, Method := st.method,
                          URL := st.url, Path := st.path, IP := st.ip,
                          RequestID := requestID } st1 with
          | (st2, Outcome.normal) => (st2, Outcome.normal)
          | (st2, Outcome.panicked _) =>
              ({ st2 with errLogs := st2.errLogs ++ ["ErrorPersister 抛出错误"] },
                Outcome.normal)

/-- Recover (recover.go lines 5-14): recovers any panic escaping the inner
chain and hands the recovered value to the panic handler. -/
def recoverMiddleware (panicHandler : String → GinSt → GinSt)
    (next : GinSt → GinSt × Outcome) (st : GinSt) : GinSt × Outcome :=
  match next st with
  | (st1, Outcome.normal) => (st1, Outcome.normal)
  | (st1, Outcome.panicked v) => (panicHandler v st1, Outcome.normal)

/-- The panic handler wired in main: writes a generic internal-error JSON
response. -/
def mainPanicHandler (_v : String) (st : GinSt) : GinSt :=
  { st with resp := st.resp ++ ["internal_server_error"] }

/-- ContextMiddleware (the web context middleware): creates a fresh request
log buffer, stores the built context under webContextKey, runs the rest of
the chain, and on every exit path runs its two deferred functions in LIFO
order: first overwrite the context slot with nil, then hand the completed
buffer to the audit persister; a panic of the inner chain then continues to
propagate. The audit persister is a parameter whose returned error the
deferred call discards, so it has no outcome. -/
def contextMiddleware (persistLogs : List Log → GinSt → GinSt)
    (next : GinSt → GinSt × Outcome) (st : GinSt) : GinSt × Outcome :=
  match next { st with logs := [],
                       kv := kvSet st.kv GinKey.webContextKey KVal.vctx } with
  | (st1, out) =>
      let st2 := { st1 with kv := kvSet st1.kv GinKey.webContextKey KVal.vnil }
      (persistLogs st2.logs st2, out)

/-- ContextMiddlewareGetter: the typed lookup of the request context; none
models the (nil, false) return, both for an absent key and for a failed type
assertion (a nil or otherwise-typed stored value). -/
def contextMiddlewareGetter (kv : KV) : Option Unit :=
  match kvGet kv GinKey.webContextKey with
  | none => none
  | some KVal.vctx => some ()
  | some _ => none

/-- The audit persister invocation as the pipeline observes it: the buffer
is recorded as received; the error value returned by Logs.Persist is
discarded at this deferred call site. -/
def recordAudit (logs : List Log) (st : GinSt) : GinSt :=
  { st with auditCalls := st.auditCalls ++ [logs] }

/-- The error persister invocation as the pipeline observes it: the report
is recorded as received and the call returns normally. -/
def recordErrorPersist (r : ErrRec) (st : GinSt) : GinSt × Outcome :=
  ({ st with errorCalls := st.errorCalls ++ [r] }, Outcome.normal)

/-- An error persister whose Persist call itself panics, to exercise the
panic guard of the error-persistence stage. -/
def panickingErrorPersist (_r : ErrRec) (st : GinSt) : GinSt × Outcome :=
  (st, Outcome.panicked "persist failed")

/-- One step of the business handler: a call on the request log collector,
recording an error against the request, reading the request ID through
RequestIdGetter, or panicking. The FATAL collector methods are excluded
from the vocabulary: no handler in the repository calls them, and a FATAL
write terminates the process before any deferred function runs, so no
request outcome exists to model — the collector-level effect of a FATAL
call (nothing buffered) is logCallStep. -/
inductive HAction where
  | callLog : (c : LogCall) → callLevel c ≠ LogLevel.fatal → HAction
  | addError : String → HAction
  | readId : HAction
  | doPanic : String → HAction

/-- Running the business handler: a sequence of steps, cut short by a
panic. A collector call first forwards its write to the base logger: at the
returning levels the append line then runs and execution continues; at the
panic levels (DPANIC, PANIC) the write panics before the append, so nothing
is buffered and the panic leaves the handler. -/
def runHandler : List HAction → GinSt → GinSt × Outcome
  | [], st => (st, Outcome.normal)
  | HAction.callLog c hnf :: rest, st =>
      if h1 : levelFate (callLevel c) = ForwardFate.returns then
        runHandler rest { st with logs := logCallAppend st.logs c }
      else if h2 : levelFate (callLevel c) = ForwardFate.panics then
        (st, Outcome.panicked "zap panic-level write")
      else absurd (levelFate_forces_fatal (callLevel c) h1 h2) hnf
  | HAction.addError m :: rest, st =>
      runHandler rest { st with errors := st.errors ++ [m] }
  | HAction.readId :: rest, st =>
      match requestIdGetter st.kv with
      | none => (st, Outcome.panicked "interface conversion")
      | some s => runHandler rest { st with observed := st.observed ++ [s] }
  | HAction.doPanic v :: _, st => (st, Outcome.panicked v)

/-- The middleware chain exactly as main wires it (outermost first):
request-ID assignment, error persistence, panic recovery, context injection,
then the business handler. -/
def pipeline (idGen : String) (persist : ErrRec → GinSt → GinSt × Outcome)
    (as : List HAction) (st : GinSt) : GinSt × Outcome :=
  requestIDMiddleware idGen
    (errorPersisterMiddleware persist
      (recoverMiddleware mainPanicHandler
        (contextMiddleware recordAudit
          (runHandler as)))) st

/-- A fresh inbound request: header is the X-Request-ID header value, with
the empty string for an absent header, as gin GetHeader reports it. -/
def initSt (header method url path ip : String) : GinSt :=
  { header := header, method := method, url := url, path := path, ip := ip,
    kv := [], errors := [], logs := [], auditCalls := [], errorCalls := [],
    errLogs := [], resp := [], observed := [] }

/-- The full pipeline on a fresh request. -/
def runPipeline (idGen : String) (persist : ErrRec → GinSt → GinSt × Outcome)
    (as : List HAction) (header method url path ip : String) : GinSt × Outcome :=
  pipeline idGen persist as (initSt header method url path ip)

/-- The request ID the request-ID stage settles on, as computed in id.go:
the inbound header when non-empty, the generated token otherwise. -/
def ridOf (header idGen : String) : String :=
  if header = "" then idGen else header

/-- The request-scoped store as it stands when the business handler is
invoked: the context slot, the request ID slot, and, when the header was
absent, the X-Request-ID slot written by the request-ID stage. -/
def kvAtHandler (header idGen : String) : KV :=
  (GinKey.webContextKey, KVal.vctx) ::
    (GinKey.idKey, KVal.vstr (ridOf header idGen)) ::
      (if header = "" then [(GinKey.xRequestID, KVal.vstr (ridOf header idGen))]
       else [])

/-- The state the business handler receives from the middleware chain. -/
def handlerStart (idGen header method url path ip : String) : GinSt :=
  { header := header, method := method, url := url, path := path, ip := ip,
    kv := kvAtHandler header idGen, errors := [], logs := [],
    auditCalls := [], errorCalls := [], errLogs := [], resp := [],
    observed := [] }

/-! ### Frame facts about the business handler -/

lemma runHandler_frame (as : List HAction) (st : GinSt) :
    (runHandler as st).1.kv = st.kv ∧
    (runHandler as st).1.header = st.header ∧
    (runHandler as st).1.method = st.method ∧
    (runHandler as st).1.url = st.url ∧
    (runHandler as st).1.path = st.path ∧
    (runHandler as st).1.ip = st.ip ∧
    (runHandler as st).1.auditCalls = st.auditCalls ∧
    (runHandler as st).1.errorCalls = st.errorCalls ∧
    (runHandler as st).1.errLogs = st.errLogs ∧
    (runHandler as st).1.resp = st.resp := by
  induction as generalizing st with
  | nil => simp [runHandler]
  | cons a rest ih =>
    cases a with
    | callLog c hnf =>
        by_cases h1 : levelFate (callLevel c) = ForwardFate.returns
        · simpa [runHandler, h1] using
            ih { st with logs := logCallAppend st.logs c }
        · by_cases h2 : levelFate (callLevel c) = ForwardFate.panics
          · simp [runHandler, h1, h2]
          · exact absurd (levelFate_forces_fatal (callLevel c) h1 h2) hnf
    | addError m =>
        simpa [runHandler] using ih { st with errors := st.errors ++ [m] }
    | readId =>
        cases hg : requestIdGetter st.kv with
        | none => simp [runHandler, hg]
        | some s =>
            simpa [runHandler, hg] using
              ih { st with observed := st.observed ++ [s] }
    | doPanic v => simp [runHandler]

lemma runHandler_observed (as : List HAction) (st : GinSt) (r : String)
    (hg : requestIdGetter st.kv = some r)
    (hob : ∀ x ∈ st.observed, x = r) :
    ∀ x ∈ (runHandler as st).1.observed, x = r := by
  induction as generalizing st with
  | nil => simpa [runHandler] using hob
  | cons a rest ih =>
    cases a with
    | callLog c hnf =>
        by_cases h1 : levelFate (callLevel c) = ForwardFate.returns
        · simp only [runHandler, dif_pos h1]
          exact ih { st with logs := logCallAppend st.logs c } hg hob
        · by_cases h2 : levelFate (callLevel c) = ForwardFate.panics
          · simp only [runHandler, dif_neg h1, dif_pos h2]
            simpa using hob
          · exact absurd (levelFate_forces_fatal (callLevel c) h1 h2) hnf
    | addError m =>
        simp only [runHandler]
        exact ih { st with errors := st.errors ++ [m] } hg hob
    | readId =>
        simp only [runHandler, hg]
        refine ih { st with observed := st.observed ++ [r] } hg ?_
        intro x hx
        rcases List.mem_append.1 hx with hx | hx
        · exact hob x hx
        · simpa using hx
    | doPanic v =>
        simpa [runHandler] using hob

lemma runHandler_append_panic (as : List HAction) (v : String) (st : GinSt)
    (r : String) (hg : requestIdGetter st.kv = some r) :
    ∃ w, (runHandler (as ++ [HAction.doPanic v]) st).2 = Outcome.panicked w := by
  induction as generalizing st with
  | nil => exact ⟨v, rfl⟩
  | cons a rest ih =>
    cases a with
    | callLog c hnf =>
        by_cases h1 : levelFate (callLevel c) = ForwardFate.returns
        · simp only [List.cons_append, runHandler, dif_pos h1]
          exact ih { st with logs := logCallAppend st.logs c } hg
        · by_cases h2 : levelFate (callLevel c) = ForwardFate.panics
          · refine ⟨"zap panic-level write", ?_⟩
            simp only [List.cons_append, runHandler, dif_neg h1, dif_pos h2]
          · exact absurd (levelFate_forces_fatal (callLevel c) h1 h2) hnf
    | addError m =>
        simp only [List.cons_append, runHandler]
        exact ih { st with errors := st.errors ++ [m] } hg
    | readId =>
        simp only [List.cons_append, runHandler, hg]
        exact ih { st with observed := st.observed ++ [r] } hg
    | doPanic w =>
        exact ⟨w, rfl⟩

/-! ### Characterization of one full pipeline run -/

lemma kvAtHandler_getter (header idGen : String) :
    requestIdGetter (kvAtHandler header idGen) = some (ridOf header idGen) := by
  simp [requestIdGetter, kvAtHandler, kvGet]

/-- The state as it stands right after the request-ID stage stored the
request ID, when the next stage is entered. -/
def afterIdSt (idGen h m u p ip : String) : GinSt :=
  { header := h, method := m, url := u, path := p, ip := ip,
    kv := (GinKey.idKey, KVal.vstr (ridOf h idGen)) ::
      (if h = "" then [(GinKey.xRequestID, KVal.vstr (ridOf h idGen))] else []),
    errors := [], logs := [], auditCalls := [], errorCalls := [], errLogs := [],
    resp := [], observed := [] }

lemma requestIDMiddleware_run (idGen h m u p ip : String)
    (next : GinSt → GinSt × Outcome) :
    requestIDMiddleware idGen next (initSt h m u p ip)
      = next (afterIdSt idGen h m u p ip) := by
  by_cases hh : h = "" <;>
    simp [requestIDMiddleware, initSt, afterIdSt, ridOf, kvSet, hh]

lemma afterIdSt_getter (idGen h m u p ip : String) :
    requestIdGetter (afterIdSt idGen h m u p ip).kv
      = some (ridOf h idGen) := by
  simp [requestIdGetter, afterIdSt, kvGet]

lemma afterIdSt_handlerStart (idGen h m u p ip : String) :
    ({ afterIdSt idGen h m u p ip with
        logs := [],
        kv := kvSet (afterIdSt idGen h m u p ip).kv GinKey.webContextKey
          KVal.vctx } : GinSt)
      = handlerStart idGen h m u p ip := by
  simp [afterIdSt, handlerStart, kvAtHandler, kvSet]

lemma chain_record (st : GinSt) (as : List HAction) (rid : String)
    (hg : requestIdGetter st.kv = some rid) (hSt : GinSt) (hOut : Outcome)
    (hH : runHandler as
        { st with logs := [], kv := kvSet st.kv GinKey.webContextKey KVal.vctx }
        = (hSt, hOut)) :
    errorPersisterMiddleware recordErrorPersist
      (recoverMiddleware mainPanicHandler
        (contextMiddleware recordAudit (runHandler as))) st =
      ({ hSt with
          kv := kvSet hSt.kv GinKey.webContextKey KVal.vnil,
          auditCalls := hSt.auditCalls ++ [hSt.logs],
          errorCalls := hSt.errorCalls ++
            (if hSt.errors = [] then [] else
              [{ Stack := ginErrorsString hSt.errors, Method := st.method,
                 URL := st.url, Path := st.path, IP := st.ip,
                 RequestID := rid }]),
          resp := match hOut with
            | Outcome.normal => hSt.resp
            | Outcome.panicked _ => hSt.resp ++ ["internal_server_error"] },
        Outcome.normal) := by
  cases hOut <;> by_cases he : hSt.errors = [] <;>
    simp [errorPersisterMiddleware, recoverMiddleware, contextMiddleware,
      mainPanicHandler, recordAudit, recordErrorPersist, hg, hH, he]

lemma runPipeline_record (idGen h m u p ip : String) (as : List HAction)
    (hSt : GinSt) (hOut : Outcome)
    (hH : runHandler as (handlerStart idGen h m u p ip) = (hSt, hOut)) :
    runPipeline idGen recordErrorPersist as h m u p ip =
      ({ hSt with
          kv := kvSet hSt.kv GinKey.webContextKey KVal.vnil,
          auditCalls := hSt.auditCalls ++ [hSt.logs],
          errorCalls := hSt.errorCalls ++
            (if hSt.errors = [] then [] else
              [{ Stack := ginErrorsString hSt.errors, Method := m, URL := u,
                 Path := p, IP := ip, RequestID := ridOf h idGen }]),
          resp := match hOut with
            | Outcome.normal => hSt.resp
            | Outcome.panicked _ => hSt.resp ++ ["internal_server_error"] },
        Outcome.normal) := by
  have hH2 : runHandler as
      { afterIdSt idGen h m u p ip with
        logs := [],
        kv := kvSet (afterIdSt idGen h m u p ip).kv GinKey.webContextKey
          KVal.vctx } = (hSt, hOut) := by
    rw [afterIdSt_handlerStart]; exact hH
  have hch := chain_record (afterIdSt idGen h m u p ip) as (ridOf h idGen)
    (afterIdSt_getter idGen h m u p ip) hSt hOut hH2
  simp only [runPipeline, pipeline, requestIDMiddleware_run]
  rw [hch]
  simp [afterIdSt]
  cases hOut <;> rfl

lemma chain_panicking (st : GinSt) (as : List HAction) (rid : String)
    (hg : requestIdGetter st.kv = some rid) (hSt : GinSt) (hOut : Outcome)
    (hH : runHandler as
        { st with logs := [], kv := kvSet st.kv GinKey.webContextKey KVal.vctx }
        = (hSt, hOut)) :
    errorPersisterMiddleware panickingErrorPersist
      (recoverMiddleware mainPanicHandler
        (contextMiddleware recordAudit (runHandler as))) st =
      ({ hSt with
          kv := kvSet hSt.kv GinKey.webContextKey KVal.vnil,
          auditCalls := hSt.auditCalls ++ [hSt.logs],
          errLogs := hSt.errLogs ++
            (if hSt.errors = [] then [] else ["ErrorPersister 抛出错误"]),
          resp := match hOut with
            | Outcome.normal => hSt.resp
            | Outcome.panicked _ => hSt.resp ++ ["internal_server_error"] },
        Outcome.normal) := by
  cases hOut <;> by_cases he : hSt.errors = [] <;>
    simp [errorPersisterMiddleware, recoverMiddleware, contextMiddleware,
      mainPanicHandler, recordAudit, panickingErrorPersist, hg, hH, he]

lemma runPipeline_panicking (idGen h m u p ip : String) (as : List HAction)
    (hSt : GinSt) (hOut : Outcome)
    (hH : runHandler as (handlerStart idGen h m u p ip) = (hSt, hOut)) :
    runPipeline idGen panickingErrorPersist as h m u p ip =
      ({ hSt with
          kv := kvSet hSt.kv GinKey.webContextKey KVal.vnil,
          auditCalls := hSt.auditCalls ++ [hSt.logs],
          errLogs := hSt.errLogs ++
            (if hSt.errors = [] then [] else ["ErrorPersister 抛出错误"]),
          resp := match hOut with
            | Outcome.normal => hSt.resp
            | Outcome.panicked _ => hSt.resp ++ ["internal_server_error"] },
        Outcome.normal) := by
  have hH2 : runHandler as
      { afterIdSt idGen h m u p ip with
        logs := [],
        kv := kvSet (afterIdSt idGen h m u p ip).kv GinKey.webContextKey
          KVal.vctx } = (hSt, hOut) := by
    rw [afterIdSt_handlerStart]; exact hH
  have hch := chain_panicking (afterIdSt idGen h m u p ip) as (ridOf h idGen)
    (afterIdSt_getter idGen h m u p ip) hSt hOut hH2
  simp only [runPipeline, pipeline, requestIDMiddleware_run]
  rw [hch]
  cases hOut <;> rfl

/-- ginErrorsString of a non-empty recorded-error list is non-empty: its
first entry starts with the literal Error marker. -/
lemma ginErrorsString_ne_empty (errs : List String) (h : errs ≠ []) :
    ginErrorsString errs ≠ "" := by
  cases errs with
  | nil => exact absurd rfl h
  | cons e rest =>
      intro hc
      have hd : (ginErrorsString (e :: rest)).data = "".data := by rw [hc]
      rw [ginErrorsString, ginErrorsStringAux] at hd
      simp [String.data_append] at hd

/-! ### The repository persisters (repository/errors.go) -/

/-- A Go time instant, with the calendar fields the file-name format uses. -/
structure GoTime where
  year : Nat
  month : Nat
  day : Nat
  hour : Nat
  minute : Nat
  second : Nat
  millis : Nat
deriving Repr, DecidableEq

/-- Zero-padding to two digits, as the Go reference layout does. -/
def pad2 (n : Nat) : String :=
  if n < 10 then "0" ++ toString n else toString n

/-- Zero-padding to three digits. -/
def pad3 (n : Nat) : String :=
  if n < 10 then "00" ++ toString n
  else if n < 100 then "0" ++ toString n
  else toString n

/-- Zero-padding to four digits. -/
def pad4 (n : Nat) : String :=
  if n < 10 then "000" ++ toString n
  else if n < 100 then "00" ++ toString n
  else if n < 1000 then "0" ++ toString n
  else toString n

/-- time.Now().Format with the layout 20060102T150405.000: date, the letter
T, the time of day and the milliseconds. -/
def fmtMillis (t : GoTime) : String :=
  pad4 t.year ++ pad2 t.month ++ pad2 t.day ++ "T" ++ pad2 t.hour
    ++ pad2 t.minute ++ pad2 t.second ++ "." ++ pad3 t.millis

/-- json.MarshalIndent of a web.Errors record with prefix "" and indent two
spaces: each exported field on its own line, in declaration order, keys
being the Go field names. -/
def marshalIndentErrors (r : ErrRec) : String :=
  "\x7b\n  \"Stack\": " ++ jencStr r.Stack
    ++ ",\n  \"Method\": " ++ jencStr r.Method
    ++ ",\n  \"URL\": " ++ jencStr r.URL
    ++ ",\n  \"Path\": " ++ jencStr r.Path
    ++ ",\n  \"IP\": " ++ jencStr r.IP
    ++ ",\n  \"RequestID\": " ++ jencStr r.RequestID
    ++ "\n\x7d"

/-- The outcomes of the file-system calls saveToFile makes, supplied by the
environment: os.MkdirAll, os.OpenFile and File.Write, each none on success
or some error text on failure. -/
structure FsOracle where
  mkdirErr : Option String
  openErr : Option String
  writeErr : Option String
deriving Repr, DecidableEq

/-- A file produced in the fallback directory: its full path and contents. -/
structure FileWrite where
  name : String
  contents : String
deriving Repr, DecidableEq

/-- Errors.saveToFile (repository/errors.go lines 49-71): marshal the record
with indentation, create the fallback directory, open the file named by
request ID and millisecond timestamp, write the payload; the first failing
step is returned as the error. The pair is the file successfully written (if
any) and the returned error. -/
def saveToFile (fs : FsOracle) (fallbackFilePath : String) (now : GoTime)
    (r : ErrRec) : Option FileWrite × Option String :=
  let data := marshalIndentErrors r
  match fs.mkdirErr with
  | some e => (none, some e)
  | none =>
    let fileName := "error_" ++ r.RequestID ++ "_" ++ fmtMillis now ++ ".json"
    let fullPath := fallbackFilePath ++ "/" ++ fileName
    match fs.openErr with
    | some e => (none, some e)
    | none =>
      match fs.writeErr with
      | some e => (none, some e)
      | none => (some { name := fullPath, contents := data }, none)

/-- The observable result of one Errors.Persist call: whether the primary
transactional write committed, the fallback file written (if any), and the
error-level log records emitted. The function is total: no outcome of the
store or of the file system makes Persist return an error or panic. -/
structure PersistResult where
  stored : Bool
  file : Option FileWrite
  errLogs : List String
deriving Repr, DecidableEq

/-- Errors.Persist (repository/errors.go lines 34-47): attempt the
transactional write of the report (dbErr is the transaction result supplied
by the store); on failure fall back to saveToFile; if that also fails, emit
one error-level record stating that both the database write and the file
write failed (carrying the file error and the report), and drop the report. -/
def errorsPersist (dbErr : Option String) (fs : FsOracle) (dir : String)
    (now : GoTime) (r : ErrRec) : PersistResult :=
  match dbErr with
  | none => { stored := true, file := none, errLogs := [] }
  | some _ =>
    match saveToFile fs dir now r with
    | (fw, none) => { stored := false, file := fw, errLogs := [] }
    | (fw, some _) =>
        { stored := false, file := fw,
          errLogs := ["无法向错误数据库写入错误堆栈，也无法向错误文件写入"] }

/-- The observable result of one Logs.Persist call: whether the record was
committed, the error value returned to the caller, and the error-level log
records emitted. -/
structure LogsPersistResult where
  stored : Bool
  returned : Option String
  emitted : List String
deriving Repr, DecidableEq

/-- Logs.Persist (repository/errors.go lines 96-102): a single transactional
write of the whole buffer as one record, whose error (if any) is returned to
the caller unchanged; nothing is logged on either path. -/
def logsPersist (dbErr : Option String) (_logs : List Log) : LogsPersistResult :=
  match dbErr with
  | none => { stored := true, returned := none, emitted := [] }
  | some e => { stored := false, returned := some e, emitted := [] }

/-- A collector call at one of the returning levels (DEBUG, INFO, WARN,
ERROR) — the only collector calls the business handlers of the repository
make. -/
structure RetCall where
  call : LogCall
  hret : levelFate (callLevel call) = ForwardFate.returns

/-- The handler step performing a returning-level collector call. -/
def retAction (rc : RetCall) : HAction :=
  HAction.callLog rc.call (returns_ne_fatal (callLevel rc.call) rc.hret)

lemma runHandler_retCalls (calls : List RetCall) (st : GinSt) :
    runHandler (calls.map retAction) st
      = ({ st with
            logs := st.logs ++ calls.map (fun rc => callRecord rc.call) },
          Outcome.normal) := by
  induction calls generalizing st with
  | nil => simp [runHandler]
  | cons rc rest ih =>
      simp only [List.map_cons, retAction, runHandler, dif_pos rc.hret]
      rw [ih]
      simp [logCallAppend_eq]

lemma runHandler_retCalls_then_panic (calls : List RetCall) (pc : LogCall)
    (hp : levelFate (callLevel pc) = ForwardFate.panics) (st : GinSt) :
    runHandler (calls.map retAction
        ++ [HAction.callLog pc (panics_ne_fatal (callLevel pc) hp)]) st
      = ({ st with
            logs := st.logs ++ calls.map (fun rc => callRecord rc.call) },
          Outcome.panicked "zap panic-level write") := by
  induction calls generalizing st with
  | nil =>
      have h1 : ¬levelFate (callLevel pc) = ForwardFate.returns := by
        rw [hp]; intro heq; cases heq
      simp [runHandler, dif_neg h1, dif_pos hp]
  | cons rc rest ih =>
      simp only [List.map_cons, List.cons_append, retAction, runHandler,
        dif_pos rc.hret, List.append_eq]
      rw [ih]
      simp [logCallAppend_eq]

lemma handlerStart_getter (idGen h m u p ip : String) :
    requestIdGetter (handlerStart idGen h m u p ip).kv
      = some (ridOf h idGen) := by
  simpa [handlerStart] using kvAtHandler_getter h idGen

/-! ### Claim theorems -/

/-- C1: for every request in which the business handler panics, the pipeline
does not crash: the run ends normally with the generic recovery response
written, the audit persister receives the request log buffer exactly once,
and the error persister receives the report exactly once iff at least one
error was recorded; the same exactly-once accounting holds on every exit
path, panicking or not. -/
theorem c1_panic_recovered_persisters_fire_once
    (idGen h m u p ip v : String) (as : List HAction) :
    (runPipeline idGen recordErrorPersist (as ++ [HAction.doPanic v])
        h m u p ip).2 = Outcome.normal
  ∧ (runPipeline idGen recordErrorPersist (as ++ [HAction.doPanic v])
        h m u p ip).1.auditCalls
      = [(runPipeline idGen recordErrorPersist (as ++ [HAction.doPanic v])
            h m u p ip).1.logs]
  ∧ (runPipeline idGen recordErrorPersist (as ++ [HAction.doPanic v])
        h m u p ip).1.errorCalls.length
      = (if (runPipeline idGen recordErrorPersist (as ++ [HAction.doPanic v])
              h m u p ip).1.errors = [] then 0 else 1)
  ∧ (runPipeline idGen recordErrorPersist (as ++ [HAction.doPanic v])
        h m u p ip).1.resp = ["internal_server_error"]
  ∧ (runPipeline idGen recordErrorPersist as h m u p ip).2 = Outcome.normal
  ∧ (runPipeline idGen recordErrorPersist as h m u p ip).1.auditCalls
      = [(runPipeline idGen recordErrorPersist as h m u p ip).1.logs]
  ∧ (runPipeline idGen recordErrorPersist as h m u p ip).1.errorCalls.length
      = (if (runPipeline idGen recordErrorPersist as h m u p ip).1.errors = []
          then 0 else 1) := by
  rcases hH : runHandler (as ++ [HAction.doPanic v])
      (handlerStart idGen h m u p ip) with ⟨hSt, hOut⟩
  have hf := runHandler_frame (as ++ [HAction.doPanic v])
    (handlerStart idGen h m u p ip)
  rw [hH] at hf
  simp only at hf
  obtain ⟨w, hw⟩ := runHandler_append_panic as v (handlerStart idGen h m u p ip)
    (ridOf h idGen) (handlerStart_getter idGen h m u p ip)
  rw [hH] at hw
  rcases hH2 : runHandler as (handlerStart idGen h m u p ip) with ⟨hSt2, hOut2⟩
  have hf2 := runHandler_frame as (handlerStart idGen h m u p ip)
  rw [hH2] at hf2
  simp only at hf2
  rw [runPipeline_record idGen h m u p ip (as ++ [HAction.doPanic v]) hSt hOut hH,
      runPipeline_record idGen h m u p ip as hSt2 hOut2 hH2]
  simp only at hw
  subst hw
  refine ⟨rfl, ?_, ?_, ?_, rfl, ?_, ?_⟩
  · simp [hf.2.2.2.2.2.2.1, handlerStart]
  · by_cases he : hSt.errors = [] <;>
      simp [he, hf.2.2.2.2.2.2.2.1, handlerStart]
  · simp [hf.2.2.2.2.2.2.2.2.2, handlerStart]
  · simp [hf2.2.2.2.2.2.2.1, handlerStart]
  · by_cases he : hSt2.errors = [] <;>
      simp [he, hf2.2.2.2.2.2.2.2.1, handlerStart]

/-- C4: the error persister is invoked iff at least one error was recorded:
with zero recorded errors no report is persisted; with one or more, exactly
one report is persisted, carrying the request method, path, client IP and
request ID and a non-empty serialized error stack. -/
theorem c4_error_persister_iff_errors
    (idGen h m u p ip : String) (as : List HAction) :
    ((runPipeline idGen recordErrorPersist as h m u p ip).1.errors = [] →
      (runPipeline idGen recordErrorPersist as h m u p ip).1.errorCalls = [])
  ∧ ((runPipeline idGen recordErrorPersist as h m u p ip).1.errors ≠ [] →
      (runPipeline idGen recordErrorPersist as h m u p ip).1.errorCalls =
        [{ Stack := ginErrorsString
              ((runPipeline idGen recordErrorPersist as h m u p ip).1.errors),
           Method := m, URL := u, Path := p, IP := ip,
           RequestID := ridOf h idGen }]
      ∧ ginErrorsString
          ((runPipeline idGen recordErrorPersist as h m u p ip).1.errors)
          ≠ "") := by
  rcases hH : runHandler as (handlerStart idGen h m u p ip) with ⟨hSt, hOut⟩
  have hf := runHandler_frame as (handlerStart idGen h m u p ip)
  rw [hH] at hf
  simp only at hf
  rw [runPipeline_record idGen h m u p ip as hSt hOut hH]
  constructor
  · intro he
    simp only at he
    simp [he, hf.2.2.2.2.2.2.2.1, handlerStart]
  · intro he
    simp only at he
    refine ⟨?_, ginErrorsString_ne_empty _ (by simpa using he)⟩
    simp only
    simp [hf.2.2.2.2.2.2.2.1, handlerStart,
      if_neg (by simpa using he : ¬hSt.errors = [])]

/-- C5: the error-persistence stage still performs its persistence when an
inner stage panicked and the panic was recovered further in (the recovery
stage sits inside it), and the stage is wrapped in its own panic guard: a
panic raised by the persist call itself is caught and only logged, with no
report recorded and no panic propagating out of the stage. -/
theorem c5_error_persist_guarded
    (idGen h m u p ip v : String) (as : List HAction) :
    (runPipeline idGen recordErrorPersist (as ++ [HAction.doPanic v])
        h m u p ip).1.errorCalls.length
      = (if (runPipeline idGen recordErrorPersist (as ++ [HAction.doPanic v])
              h m u p ip).1.errors = [] then 0 else 1)
  ∧ (runPipeline idGen panickingErrorPersist as h m u p ip).2 = Outcome.normal
  ∧ (runPipeline idGen panickingErrorPersist as h m u p ip).1.errLogs
      = (if (runPipeline idGen panickingErrorPersist as h m u p ip).1.errors
            = [] then [] else ["ErrorPersister 抛出错误"])
  ∧ (runPipeline idGen panickingErrorPersist as h m u p ip).1.errorCalls
      = [] := by
  rcases hH : runHandler (as ++ [HAction.doPanic v])
      (handlerStart idGen h m u p ip) with ⟨hSt, hOut⟩
  have hf := runHandler_frame (as ++ [HAction.doPanic v])
    (handlerStart idGen h m u p ip)
  rw [hH] at hf
  simp only at hf
  rcases hH2 : runHandler as (handlerStart idGen h m u p ip) with ⟨hSt2, hOut2⟩
  have hf2 := runHandler_frame as (handlerStart idGen h m u p ip)
  rw [hH2] at hf2
  simp only at hf2
  rw [runPipeline_record idGen h m u p ip (as ++ [HAction.doPanic v]) hSt hOut hH,
      runPipeline_panicking idGen h m u p ip as hSt2 hOut2 hH2]
  refine ⟨?_, rfl, ?_, ?_⟩
  · by_cases he : hSt.errors = [] <;>
      simp [he, hf.2.2.2.2.2.2.2.1, handlerStart]
  · by_cases he : hSt2.errors = [] <;>
      simp [he, hf2.2.2.2.2.2.2.2.2.1, handlerStart]
  · simp [hf2.2.2.2.2.2.2.2.1, handlerStart]

/-- C6: the request ID is the inbound header value verbatim when that header
is non-empty, the freshly generated token otherwise (non-empty whenever the
generator yields a non-empty token); the business handler observes exactly
this value on every read, the handler-facing store holds it, and every
persisted error report carries it. -/
theorem c6_request_id_stable (idGen h m u p ip : String) (as : List HAction) :
    (h ≠ "" → ridOf h idGen = h)
  ∧ (h = "" → ridOf h idGen = idGen)
  ∧ (h = "" → idGen ≠ "" → ridOf h idGen ≠ "")
  ∧ requestIdGetter (handlerStart idGen h m u p ip).kv = some (ridOf h idGen)
  ∧ (∀ x ∈ (runPipeline idGen recordErrorPersist as h m u p ip).1.observed,
      x = ridOf h idGen)
  ∧ (∀ r ∈ (runPipeline idGen recordErrorPersist as h m u p ip).1.errorCalls,
      r.RequestID = ridOf h idGen) := by
  rcases hH : runHandler as (handlerStart idGen h m u p ip) with ⟨hSt, hOut⟩
  have hob := runHandler_observed as (handlerStart idGen h m u p ip)
    (ridOf h idGen) (handlerStart_getter idGen h m u p ip)
    (by simp [handlerStart])
  rw [hH] at hob
  simp only at hob
  have hf := runHandler_frame as (handlerStart idGen h m u p ip)
  rw [hH] at hf
  simp only at hf
  rw [runPipeline_record idGen h m u p ip as hSt hOut hH]
  refine ⟨fun hh => by simp [ridOf, hh], fun hh => by simp [ridOf, hh],
    fun hh hg => by simp [ridOf, hh, hg],
    handlerStart_getter idGen h m u p ip, ?_, ?_⟩
  · simpa using hob
  · intro r hr
    simp only at hr
    rw [hf.2.2.2.2.2.2.2.1] at hr
    simp only [handlerStart] at hr
    by_cases he : hSt.errors = [] <;> simp [he] at hr
    simp [hr]

/-- C6 witness: a concrete run with an absent header and one with a present
header, instantiating every hypothesis of the request-ID theorem. -/
theorem c6_request_id_stable_witness :
    ridOf "" "gen" = "gen"
  ∧ ridOf "hdr" "gen" = "hdr"
  ∧ ridOf "" "gen" ≠ ""
  ∧ (∀ x ∈ (runPipeline "gen" recordErrorPersist [HAction.readId]
        "" "GET" "/u" "/u" "ip").1.observed, x = ridOf "" "gen") := by
  refine ⟨(c6_request_id_stable "gen" "" "GET" "/u" "/u" "ip" []).2.1 rfl,
    (c6_request_id_stable "gen" "hdr" "GET" "/u" "/u" "ip" []).1 (by decide),
    (c6_request_id_stable "gen" "" "GET" "/u" "/u" "ip" []).2.2.1 rfl (by decide),
    (c6_request_id_stable "gen" "" "GET" "/u" "/u" "ip"
      [HAction.readId]).2.2.2.2.1⟩

/-- C4 witness: a request recording one error persists exactly one report
with the request metadata and a non-empty stack; one recording none
persists nothing. -/
theorem c4_error_persister_iff_errors_witness :
    (runPipeline "gen" recordErrorPersist [] "hdr" "GET" "/u" "/u"
        "ip").1.errorCalls = []
  ∧ (runPipeline "gen" recordErrorPersist [HAction.addError "a custom error"]
        "hdr" "GET" "/u" "/u" "ip").1.errorCalls =
      [{ Stack := ginErrorsString
            ((runPipeline "gen" recordErrorPersist
                [HAction.addError "a custom error"]
                "hdr" "GET" "/u" "/u" "ip").1.errors),
         Method := "GET", URL := "/u", Path := "/u", IP := "ip",
         RequestID := ridOf "hdr" "gen" }] := by
  refine ⟨(c4_error_persister_iff_errors "gen" "hdr" "GET" "/u" "/u" "ip" []).1
      (by decide),
    ((c4_error_persister_iff_errors "gen" "hdr" "GET" "/u" "/u" "ip"
        [HAction.addError "a custom error"]).2 (by decide)).1⟩

/-- C2: Errors.Persist is a total fallback chain, never surfacing a failure:
a successful primary transactional write stores the report and touches
nothing else; on primary failure the report is serialized to indented JSON
and written to a file (named by request ID and millisecond timestamp) in
the fallback directory, created if absent; if any file-system step fails
too, one error-level record stating both failures is emitted and the report
is dropped. -/
theorem c2_errors_persist_fallback_chain (dbErr : Option String)
    (fs : FsOracle) (dir : String) (now : GoTime) (r : ErrRec) :
    errorsPersist dbErr fs dir now r =
      if dbErr = none then { stored := true, file := none, errLogs := [] }
      else if fs.mkdirErr = none ∧ fs.openErr = none ∧ fs.writeErr = none then
        { stored := false,
          file := some { name := dir ++ "/" ++ ("error_" ++ r.RequestID ++ "_" ++ fmtMillis now ++ ".json"), contents := marshalIndentErrors r },
          errLogs := [] }
      else
        { stored := false, file := none,
          errLogs := ["无法向错误数据库写入错误堆栈，也无法向错误文件写入"] } := by
  rcases fs with ⟨mk, op, wr⟩
  cases dbErr <;> cases mk <;> cases op <;> cases wr <;>
    simp [errorsPersist, saveToFile]

/-- C3 counterexample: at a concrete failing store, Logs.Persist returns the
transaction error to its caller (it does propagate the failure) and emits no
error-level log of the failure or of the buffer, contradicting the claim on
both counts. -/
theorem c3_counterexample :
    (logsPersist (some "store unavailable")
        [{ Level := "INFO", Msg := "[\"start\"]" }]).returned ≠ none
  ∧ (logsPersist (some "store unavailable")
        [{ Level := "INFO", Msg := "[\"start\"]" }]).emitted = [] := by
  exact ⟨by decide, rfl⟩

/-- C3 amended: when the transactional write of the buffer fails,
Logs.Persist stores nothing, returns the error unchanged to its caller and
emits no log; the deferred call site in the context middleware discards the
returned value, so the failure never goes further and no other action is
taken. On success the record is stored and nothing else happens. -/
theorem c3_logs_persist_returns_error (e : String) (logs : List Log) :
    logsPersist (some e) logs
      = { stored := false, returned := some e, emitted := [] }
  ∧ logsPersist none logs
      = { stored := true, returned := none, emitted := [] } := by
  exact ⟨rfl, rfl⟩

/-- C7 counterexample: two collector calls during one request — Info then
Panic — leave one record in the buffer the audit persister receives, not
two: the PANIC-level write panics inside the wired base logger before the
append line, so the second call buffers nothing. -/
theorem c7_counterexample :
    (runPipeline "gen" recordErrorPersist
        [HAction.callLog (LogCall.plain LogLevel.info [JVal.jstr "start"])
            (by decide),
         HAction.callLog (LogCall.plain LogLevel.panicLvl [JVal.jstr "boom"])
            (by decide)]
        "" "GET" "/u" "/u" "ip").1.auditCalls
      = [[{ Level := "INFO", Msg := "[\"start\"]" }]]
  ∧ (runPipeline "gen" recordErrorPersist
        [HAction.callLog (LogCall.plain LogLevel.info [JVal.jstr "start"])
            (by decide),
         HAction.callLog (LogCall.plain LogLevel.panicLvl [JVal.jstr "boom"])
            (by decide)]
        "" "GET" "/u" "/u" "ip").1.logs.length ≠ 2 := by
  exact ⟨by decide, by decide⟩

/-- C7 (amended): for every sequence of collector calls at the returning
levels (DEBUG, INFO, WARN, ERROR) during one request, the buffer handed to
the audit persister holds exactly one record per call, in call order, each
tagged with the level of its originating call. A PANIC- or DPANIC-level
call buffers nothing — the forwarded write panics before the append — so it
truncates the buffer at the calls already made and panics out of the
handler; the request still recovers and the truncated buffer is audited.
Any call whose forwarded write does not return (FATAL included) leaves the
buffer untouched at the collector level. -/
theorem c7_returning_calls_buffer_exactly (idGen h m u p ip : String)
    (calls : List RetCall) (pc : LogCall)
    (hp : levelFate (callLevel pc) = ForwardFate.panics) :
    (runPipeline idGen recordErrorPersist (calls.map retAction)
        h m u p ip).1.auditCalls = [calls.map (fun rc => callRecord rc.call)]
  ∧ (calls.map (fun rc => callRecord rc.call)).length = calls.length
  ∧ (∀ c, (callRecord c).Level = levelName (callLevel c))
  ∧ (runPipeline idGen recordErrorPersist
        (calls.map retAction
          ++ [HAction.callLog pc (panics_ne_fatal (callLevel pc) hp)])
        h m u p ip).1.auditCalls = [calls.map (fun rc => callRecord rc.call)]
  ∧ (runPipeline idGen recordErrorPersist
        (calls.map retAction
          ++ [HAction.callLog pc (panics_ne_fatal (callLevel pc) hp)])
        h m u p ip).2 = Outcome.normal
  ∧ (∀ logs c, levelFate (callLevel c) ≠ ForwardFate.returns →
      (logCallStep logs c).1 = logs) := by
  have hH := runHandler_retCalls calls (handlerStart idGen h m u p ip)
  have hH2 := runHandler_retCalls_then_panic calls pc hp
    (handlerStart idGen h m u p ip)
  rw [runPipeline_record idGen h m u p ip (calls.map retAction) _ _ hH,
      runPipeline_record idGen h m u p ip
        (calls.map retAction
          ++ [HAction.callLog pc (panics_ne_fatal (callLevel pc) hp)])
        _ _ hH2]
  refine ⟨?_, by simp, callRecord_level, ?_, rfl, ?_⟩
  · simp [handlerStart]
  · simp [handlerStart]
  · intro logs c hc
    simp [logCallStep, hc]

/-- C7 witness: a concrete request whose handler makes one INFO call
buffers exactly that record; a concrete FATAL-level call leaves the buffer
untouched at the collector level. -/
theorem c7_returning_calls_buffer_exactly_witness :
    (runPipeline "gen" recordErrorPersist
        (([⟨LogCall.plain LogLevel.info [JVal.jstr "start"], rfl⟩]
            : List RetCall).map retAction)
        "" "GET" "/u" "/u" "ip").1.auditCalls
      = [[{ Level := "INFO", Msg := "[\"start\"]" }]]
  ∧ (logCallStep [] (LogCall.plain LogLevel.fatal [JVal.jstr "bye"])).1
      = [] := by
  refine ⟨?_, ?_⟩
  · exact ((c7_returning_calls_buffer_exactly "gen" "" "GET" "/u" "/u" "ip"
      [⟨LogCall.plain LogLevel.info [JVal.jstr "start"], rfl⟩]
      (LogCall.plain LogLevel.panicLvl []) rfl).1).trans (by decide)
  · exact (c7_returning_calls_buffer_exactly "gen" "" "GET" "/u" "/u" "ip" []
      (LogCall.plain LogLevel.panicLvl []) rfl).2.2.2.2.2 []
      (LogCall.plain LogLevel.fatal [JVal.jstr "bye"]) (by decide)

/-- C8: when the primary store write fails and the file fallback succeeds,
the persist call creates exactly one file, in the fallback directory, named
error_ then the request ID, an underscore and the millisecond-precision
timestamp, with extension json, whose contents are the indented-JSON
serialization of the same report; nothing is logged and nothing is stored
in the primary store. -/
theorem c8_fallback_file_name_and_contents (fs : FsOracle) (dir : String)
    (now : GoTime) (r : ErrRec) (e : String) (hm : fs.mkdirErr = none)
    (ho : fs.openErr = none) (hw : fs.writeErr = none) :
    (errorsPersist (some e) fs dir now r).file =
      some { name := dir ++ "/" ++ ("error_" ++ r.RequestID ++ "_" ++ fmtMillis now ++ ".json"), contents := marshalIndentErrors r }
  ∧ (errorsPersist (some e) fs dir now r).errLogs = []
  ∧ (errorsPersist (some e) fs dir now r).stored = false := by
  rcases fs with ⟨mk, op, wr⟩
  subst hm ho hw
  exact ⟨rfl, rfl, rfl⟩

/-- C8 witness: a concrete lost report yields the concrete file path with
millisecond timestamp and the concrete indented-JSON payload. -/
theorem c8_fallback_file_name_and_contents_witness :
    (errorsPersist (some "db down") { mkdirErr := none, openErr := none, writeErr := none } "./errors"
        { year := 2026, month := 1, day := 2, hour := 3, minute := 4, second := 5, millis := 6 }
        { Stack := "Error #01: a custom error\n", Method := "GET", URL := "/u?x=1", Path := "/u", IP := "1.2.3.4", RequestID := "rid-1" }).file =
      some { name := "./errors/error_rid-1_20260102T030405.006.json",
             contents := "\x7b\n  \"Stack\": \"Error #01: a custom error\\n\",\n  \"Method\": \"GET\",\n  \"URL\": \"/u?x=1\",\n  \"Path\": \"/u\",\n  \"IP\": \"1.2.3.4\",\n  \"RequestID\": \"rid-1\"\n\x7d" } := by
  exact (c8_fallback_file_name_and_contents
    { mkdirErr := none, openErr := none, writeErr := none } "./errors"
    { year := 2026, month := 1, day := 2, hour := 3, minute := 4, second := 5, millis := 6 }
    { Stack := "Error #01: a custom error\n", Method := "GET", URL := "/u?x=1", Path := "/u", IP := "1.2.3.4", RequestID := "rid-1" }
    "db down" rfl rfl rfl).1.trans (by decide)

/-- C9 counterexample: a PANIC-level format-string call buffers no record
at all — the forwarded write panics before the append line — so no buffered
record with the JSON-pair message exists for that call, contrary to the
claim about every f-variant call. -/
theorem c9_counterexample :
    (logCallStep []
        (LogCall.fvariant LogLevel.panicLvl "boom %s" [JVal.jstr "x"])).1 = []
  ∧ (logCallStep []
        (LogCall.fvariant LogLevel.panicLvl "boom %s" [JVal.jstr "x"])).2
      = ForwardFate.panics := by
  exact ⟨rfl, rfl⟩

/-- C9 (amended): for every format-string variant and every keyed-pairs
variant call at a returning level (DEBUG, INFO, WARN, ERROR) — the Infof
and Infow methods in particular — the buffered record message is the JSON
serialization of the two-element array holding the template or message and
the argument list, which differs from the interpolated message the base
logger emits, as the concrete instance shows; at the DPANIC, PANIC and
FATAL levels such a call buffers nothing, because the forwarded write
panics or exits before the append line. -/
theorem c9_returning_variants_buffer_json_pair :
    (∀ logs template args, webLogInfof logs template args
        = logs ++ [{ Level := "INFO", Msg := jenc (JVal.jarr [JVal.jstr template, JVal.jarr args]) }])
  ∧ (∀ logs msg kvs, webLogInfow logs msg kvs
        = logs ++ [{ Level := "INFO", Msg := jenc (JVal.jarr [JVal.jstr msg, JVal.jarr kvs]) }])
  ∧ (∀ logs lvl template args, levelFate lvl = ForwardFate.returns →
      (logCallStep logs (LogCall.fvariant lvl template args)).1
        = logs ++ [{ Level := levelName lvl, Msg := jenc (JVal.jarr [JVal.jstr template, JVal.jarr args]) }])
  ∧ (∀ logs lvl msg kvs, levelFate lvl = ForwardFate.returns →
      (logCallStep logs (LogCall.wvariant lvl msg kvs)).1
        = logs ++ [{ Level := levelName lvl, Msg := jenc (JVal.jarr [JVal.jstr msg, JVal.jarr kvs]) }])
  ∧ (∀ logs lvl template args, levelFate lvl ≠ ForwardFate.returns →
      (logCallStep logs (LogCall.fvariant lvl template args)).1 = logs)
  ∧ (∀ logs lvl msg kvs, levelFate lvl ≠ ForwardFate.returns →
      (logCallStep logs (LogCall.wvariant lvl msg kvs)).1 = logs)
  ∧ webLogInfof [] "hello %s" [JVal.jstr "world"]
      = [{ Level := "INFO", Msg := "[\"hello %s\",[\"world\"]]" }]
  ∧ ("[\"hello %s\",[\"world\"]]" : String) ≠ "hello world" := by
  refine ⟨fun _ _ _ => rfl, fun _ _ _ => rfl, ?_, ?_, ?_, ?_,
    by decide, by decide⟩
  · intro logs lvl template args hret
    simp [logCallStep, callLevel, hret, logCallAppend, appendToLogs]
  · intro logs lvl msg kvs hret
    simp [logCallStep, callLevel, hret, logCallAppend, appendToLogs]
  · intro logs lvl template args hret
    simp [logCallStep, callLevel, hret]
  · intro logs lvl msg kvs hret
    simp [logCallStep, callLevel, hret]

/-- C9 witness: a concrete Infof-shaped call at the INFO level buffers the
JSON-pair record, and a concrete Fatalw-shaped call buffers nothing. -/
theorem c9_returning_variants_buffer_json_pair_witness :
    (logCallStep []
        (LogCall.fvariant LogLevel.info "hello %s" [JVal.jstr "world"])).1
      = [{ Level := "INFO", Msg := "[\"hello %s\",[\"world\"]]" }]
  ∧ (logCallStep [] (LogCall.wvariant LogLevel.fatal "bye" [])).1 = [] := by
  refine ⟨?_, ?_⟩
  · exact (c9_returning_variants_buffer_json_pair.2.2.1 [] LogLevel.info
      "hello %s" [JVal.jstr "world"] rfl).trans (by decide)
  · exact c9_returning_variants_buffer_json_pair.2.2.2.2.2.1 []
      LogLevel.fatal "bye" [] (by decide)

/-- C10: after the context-injection stage exits, on every exit path and for
every inner handler, the context slot holds nil and the typed lookup reports
not-found; the lookup also reports not-found, without raising, when the slot
is absent or holds nil, a string, or a value of any other type. -/
theorem c10_context_slot_cleared (next : GinSt → GinSt × Outcome)
    (st : GinSt) :
    kvGet (contextMiddleware recordAudit next st).1.kv GinKey.webContextKey
      = some KVal.vnil
  ∧ contextMiddlewareGetter (contextMiddleware recordAudit next st).1.kv
      = none
  ∧ contextMiddlewareGetter [] = none
  ∧ contextMiddlewareGetter [(GinKey.webContextKey, KVal.vnil)] = none
  ∧ (∀ s, contextMiddlewareGetter [(GinKey.webContextKey, KVal.vstr s)]
      = none)
  ∧ contextMiddlewareGetter [(GinKey.webContextKey, KVal.vother)] = none := by
  rcases hn : next { st with logs := [], kv := kvSet st.kv GinKey.webContextKey KVal.vctx } with ⟨st1, out⟩
  refine ⟨?_, ?_, rfl, rfl, fun s => rfl, rfl⟩ <;>
    simp [contextMiddleware, hn, recordAudit, kvSet, kvGet,
      contextMiddlewareGetter]

end WebClean
